import Mathlib

/-!
Shallow embedding of `src/voice/scripts/kokoro_tts.py` (the `main` function):
a single-purpose CLI wrapper that reads text, invokes one of two TTS
backends, and emits WAV/opus audio or JSON status objects.

The program is modelled as a pure function `run : Args → Env → Nat × List Event`
returning the process exit status together with the ordered trace of its
observable effects (import attempts, stdin read, backend invocations,
JSON writes to stdout/stderr, byte writes, file creations/deletions,
subprocess calls).  Backend libraries, the TTS models and the external
encoder are parameters of the environment `Env`.
-/

namespace Kokoro

/-- Truncation of a rational toward zero, as C float-to-int conversion does
(`Int.tdiv` truncates toward zero). -/
def truncQ (q : ℚ) : Int := q.num.tdiv q.den

/-- Wrap an integer into the int16 range [-32768, 32767] (two's complement),
as numpy's `astype(np.int16)` does for the in-range and wrapped cases. -/
def toInt16 (z : Int) : Int := (z + 32768) % 65536 - 32768

/-- `astype16 q` : numpy `q.astype(np.int16)` on a scalar — truncate toward
zero, then wrap into int16. -/
def astype16 (q : ℚ) : Int := toInt16 (truncQ q)

/-- Little-endian two-byte serialization of an int16 value
(numpy `.tobytes()` on a little-endian platform). -/
def int16LE (z : Int) : List Nat :=
  [((z % 65536).toNat) % 256, ((z % 65536).toNat) / 256]

/-- `audio_data = (samples * 32767).astype(np.int16).tobytes()`
(lines 90 and 113 of the script): each floating-point sample is multiplied
by 32767, cast to int16, and the results are serialized little-endian. -/
def audioBytes (samples : List ℚ) : List Nat :=
  (samples.map (fun s => astype16 (s * 32767))).flatMap int16LE

/-- `len(audio_data) / (sample_rate * 2)` (lines 117 and 150):
duration in seconds of an `L`-byte 16-bit mono PCM buffer at rate `R`. -/
def duration (L R : Nat) : ℚ := (L : ℚ) / ((R : ℚ) * 2)

/-- Python `str.strip()` on the text read from stdin (line 52): remove
whitespace from both ends. -/
def pyStrip (s : String) : String :=
  ⟨((s.data.dropWhile Char.isWhitespace).reverse.dropWhile Char.isWhitespace).reverse⟩

/-- Scanner for `replaceAll`: while `skip > 0` the current character
belongs to an occurrence that was already replaced and is dropped;
at `skip = 0` an occurrence of `pat` starting here is replaced by `rep`
and the remaining `pat.length - 1` characters are marked to be skipped. -/
def replaceAllAux (pat rep : List Char) : Nat → List Char → List Char
  | _, [] => []
  | Nat.succ k, _ :: rest => replaceAllAux pat rep k rest
  | 0, c :: rest =>
    if pat.isPrefixOf (c :: rest) then
      rep ++ replaceAllAux pat rep (pat.length - 1) rest
    else
      c :: replaceAllAux pat rep 0 rest

/-- Python `str.replace(pat, rep)` on character lists: replace every
non-overlapping occurrence of `pat` left to right (`pat` nonempty). -/
def replaceAll (pat rep : List Char) (s : List Char) : List Char :=
  replaceAllAux pat rep 0 s

/-- `replaceAll` on the empty list. -/
theorem replaceAll_nil (pat rep : List Char) : replaceAll pat rep [] = [] := rfl

/-- `replaceAll` away from an occurrence of the pattern keeps the head. -/
theorem replaceAll_cons_no_match (pat rep : List Char) (c : Char)
    (rest : List Char) (h : ¬ pat.isPrefixOf (c :: rest) = true) :
    replaceAll pat rep (c :: rest) = c :: replaceAll pat rep rest := by
  simp [replaceAll, replaceAllAux, h]

/-- The scanner with pending skip count `l.length` drops exactly `l`. -/
theorem replaceAllAux_skip (pat rep : List Char) (l t : List Char) :
    replaceAllAux pat rep l.length (l ++ t) = replaceAllAux pat rep 0 t := by
  induction l with
  | nil => rfl
  | cons c l ih =>
    simp only [List.length_cons, List.cons_append, replaceAllAux]
    exact ih

/-- `args.output.replace('.wav', '.opus')` (line 139). -/
def opusPath (p : String) : String :=
  ⟨replaceAll ".wav".data ".opus".data p.data⟩

/-- Little-endian bytes of a 16-bit field of a WAV header. -/
def u16le (n : Nat) : List Nat := [n % 256, n / 256 % 256]

/-- Little-endian bytes of a 32-bit field of a WAV header. -/
def u32le (n : Nat) : List Nat :=
  [n % 256, n / 256 % 256, n / 65536 % 256, n / 16777216 % 256]

/-- ASCII bytes of a tag string. -/
def asciiBytes (s : String) : List Nat := s.data.map Char.toNat

/-- The bytes produced by Python's `wave` module for a mono 16-bit PCM
stream at rate `rate` (setnchannels(1), setsampwidth(2), setframerate(rate),
writeframes(data) — lines 131-135 and 158-162): the canonical 44-byte
RIFF/WAVE header followed by the PCM data. -/
def wavBytes (rate : Nat) (data : List Nat) : List Nat :=
  asciiBytes "RIFF" ++ u32le (36 + data.length) ++ asciiBytes "WAVE" ++
  asciiBytes "fmt " ++ u32le 16 ++ u16le 1 ++ u16le 1 ++ u32le rate ++
  u32le (rate * 2) ++ u16le 2 ++ u16le 16 ++
  asciiBytes "data" ++ u32le data.length ++ data

/-- The JSON objects the script can emit (their field structure). -/
inductive JOut
  /-- `{'error': msg, 'success': False}` -/
  | errObj (msg : String)
  /-- `{'success': True, 'sample_rate': rate, 'duration': dur, 'format': 'pcm_s16le', 'size': size}` -/
  | infoObj (sampleRate : Nat) (dur : ℚ) (size : Nat)
  /-- `{'success': True, 'file': file, 'duration': dur}` -/
  | fileObj (file : String) (dur : ℚ)
deriving DecidableEq

/-- An observable step of the process. -/
inductive Event
  /-- `import kokoro_onnx` attempted (line 33). -/
  | tryImportOnnx
  /-- `from kokoro import KPipeline` attempted (line 37). -/
  | tryImportKokoro
  /-- `sys.stdin.read()` (line 52). -/
  | readStdin
  /-- `model.create(text, voice=…, speed=…)` on the ONNX backend (line 83). -/
  | invokeOnnx (text voice : String) (speed : ℚ)
  /-- `KPipeline(lang_code=…)` constructed and called on `(text, voice, speed)` (lines 98-102). -/
  | invokePipeline (lang text voice : String) (speed : ℚ)
  /-- A JSON object printed to standard output. -/
  | stdoutJson (j : JOut)
  /-- A JSON object written to standard error. -/
  | stderrJson (j : JOut)
  /-- Raw bytes written to standard output (line 164). -/
  | stdoutBytes (b : List Nat)
  /-- A file created at `path` with contents `b` (lines 131-135). -/
  | writeFile (path : String) (b : List Nat)
  /-- `subprocess.run(['ffmpeg', …, input, …, output], check=True)`:
  `ok` records whether the encoder exited zero (line 140). -/
  | runFfmpeg (input output : String) (ok : Bool)
  /-- `os.unlink(path)` (line 144). -/
  | deleteFile (path : String)
deriving DecidableEq

/-- The parsed command-line arguments (lines 20-28) with their defaults. -/
structure Args where
  voice : String := "af_heart"
  lang : String := "a"
  speed : ℚ := 1
  output : Option String := none
  text : Option String := none
  format : String := "wav"
  infoOnly : Bool := false

/-- The environment the process runs in: which backend libraries are
importable, the text on standard input, the behaviour of each backend
(result or raised-exception message), and the exit code of the external
opus encoder. -/
structure Env where
  onnxAvailable : Bool
  kokoroAvailable : Bool
  stdin : String
  /-- `model.create(text, voice, speed)` → `(samples, sample_rate)`, or the
  message of the exception it raises. -/
  onnx : String → String → ℚ → Except String (List ℚ × Nat)
  /-- The full pipeline for `(lang, text, voice, speed)` → the list of audio
  chunks it yields, or the message of the exception it raises. -/
  pipeline : String → String → String → ℚ → Except String (List (List ℚ))
  /-- Exit code of the ffmpeg subprocess (0 = success). -/
  ffmpegExit : Nat

/-- The error JSON for a missing backend (lines 39-42). -/
def backendUnavailableMsg : String :=
  "Kokoro not installed. Run: pip install kokoro-onnx (or pip install kokoro)"

/-- The error JSON for empty input (line 55). -/
def emptyInputMsg : String := "No text provided"

/-- `str(e)` of a `subprocess.CalledProcessError` for the ffmpeg call. -/
def calledProcessErrorMsg (code : Nat) : String :=
  "Command ffmpeg returned non-zero exit status " ++ toString code ++ "."

/-- Error reporting channel (lines 43-46, 56-59, 168-171): the JSON goes to
standard output in info-only mode and to standard error otherwise. -/
def errJson (infoOnly : Bool) (msg : String) : Event :=
  if infoOnly then .stdoutJson (.errObj msg) else .stderrJson (.errObj msg)

/-- Import attempts (lines 31-38): kokoro_onnx is tried first; kokoro is
tried only when that import fails. -/
def importEvents (e : Env) : List Event :=
  if e.onnxAvailable then [.tryImportOnnx] else [.tryImportOnnx, .tryImportKokoro]

/-- Input acquisition (lines 50-52): `text = args.text; if not text:
text = sys.stdin.read().strip()` — stdin is read, and stripped, exactly when
the flag is absent or the empty string. -/
def getText (args : Args) (e : Env) : String × List Event :=
  match args.text with
  | some t => if t = "" then (pyStrip e.stdin, [.readStdin]) else (t, [])
  | none => (pyStrip e.stdin, [.readStdin])

/-- The synthesis step (lines 62-113): invoke the selected backend and
produce the PCM byte buffer and sample rate, or the raised exception's
message.  The invocation event is emitted in either case (the call happens
before any exception propagates). -/
def synth (useOnnx : Bool) (args : Args) (e : Env) (text : String) :
    List Event × Except String (List Nat × Nat) :=
  if useOnnx then
    ([.invokeOnnx text args.voice args.speed],
      match e.onnx text args.voice args.speed with
      | .error msg => .error msg
      | .ok (samples, rate) => .ok (audioBytes samples, rate))
  else
    ([.invokePipeline args.lang text args.voice args.speed],
      match e.pipeline args.lang text args.voice args.speed with
      | .error msg => .error msg
      | .ok chunks =>
        if chunks = [] then .error "No audio generated"
        else .ok (audioBytes chunks.flatten, 24000))

/-- Output routing on the success path (lines 116-164): info-only JSON to
stdout, or WAV to file (with optional opus transcoding), or WAV to stdout. -/
def writeOutput (args : Args) (e : Env) (audio : List Nat) (rate : Nat) :
    Nat × List Event :=
  if args.infoOnly then
    (0, [.stdoutJson (.infoObj rate (duration audio.length rate) audio.length)])
  else
    match args.output with
    | some outPath =>
      let wEvt : Event := .writeFile outPath (wavBytes rate audio)
      if args.format = "opus" then
        let opusFile := opusPath outPath
        if e.ffmpegExit = 0 then
          (0, [wEvt, .runFfmpeg outPath opusFile true, .deleteFile outPath,
               .stderrJson (.fileObj opusFile (duration audio.length rate))])
        else
          (1, [wEvt, .runFfmpeg outPath opusFile false,
               errJson args.infoOnly
                 ("Synthesis failed: " ++ calledProcessErrorMsg e.ffmpegExit)])
      else
        (0, [wEvt, .stderrJson (.fileObj outPath (duration audio.length rate))])
    | none => (0, [.stdoutBytes (wavBytes rate audio)])

/-- The whole `main` function: exit status and trace of observable events. -/
def run (args : Args) (e : Env) : Nat × List Event :=
  let imports := importEvents e
  if !e.onnxAvailable && !e.kokoroAvailable then
    (1, imports ++ [errJson args.infoOnly backendUnavailableMsg])
  else
    let (text, readEvts) := getText args e
    let pre := imports ++ readEvts
    if text = "" then
      (1, pre ++ [errJson args.infoOnly emptyInputMsg])
    else
      let (synthEvts, res) := synth e.onnxAvailable args e text
      match res with
      | .error msg =>
        (1, pre ++ synthEvts ++ [errJson args.infoOnly ("Synthesis failed: " ++ msg)])
      | .ok (audio, rate) =>
        let (code, outEvts) := writeOutput args e audio rate
        (code, pre ++ synthEvts ++ outEvts)

/-- The JSON objects a trace sends to standard output, in order. -/
def stdoutJsons (tr : List Event) : List JOut :=
  tr.filterMap fun ev => match ev with
    | .stdoutJson j => some j
    | _ => none

/-- The JSON objects a trace sends to standard error, in order. -/
def stderrJsons (tr : List Event) : List JOut :=
  tr.filterMap fun ev => match ev with
    | .stderrJson j => some j
    | _ => none

/-- The raw audio byte writes of a trace: bytes to stdout and file
contents. -/
def audioByteWrites (tr : List Event) : List (List Nat) :=
  tr.filterMap fun ev => match ev with
    | .stdoutBytes b => some b
    | .writeFile _ b => some b
    | _ => none

/-- Whether an event is an invocation of the ONNX backend. -/
def isOnnxInvocation : Event → Bool
  | .invokeOnnx _ _ _ => true
  | _ => false

/-- Whether an event is an invocation of the full-pipeline backend. -/
def isPipelineInvocation : Event → Bool
  | .invokePipeline _ _ _ _ => true
  | _ => false

/-- Whether a JSON object is a success report (`success: True`). -/
def isSuccessObj : JOut → Bool
  | .errObj _ => false
  | _ => true

/-- Replay the file-creating and file-deleting events of a trace over a set
of existing paths (ffmpeg creates its output file when it succeeds). -/
def applyEvent (fs : List String) : Event → List String
  | .writeFile p _ => if p ∈ fs then fs else fs ++ [p]
  | .deleteFile p => fs.filter (· ≠ p)
  | .runFfmpeg _ out ok =>
      if ok then (if out ∈ fs then fs else fs ++ [out]) else fs
  | _ => fs

/-- The files existing after a trace, starting from an empty directory. -/
def finalFiles (tr : List Event) : List String :=
  tr.foldl applyEvent []

/-! ### Branch characterizations of `run` -/

/-- With neither library importable, the run stops after the two failed
imports with the backend-unavailable error and exit status 1. -/
theorem run_no_backend (args : Args) (e : Env)
    (h1 : e.onnxAvailable = false) (h2 : e.kokoroAvailable = false) :
    run args e =
      (1, [.tryImportOnnx, .tryImportKokoro, errJson args.infoOnly backendUnavailableMsg]) := by
  simp [run, importEvents, h1, h2]

/-- A non-empty `--text` value is used verbatim and stdin is not read. -/
theorem getText_flag (args : Args) (e : Env) (t : String)
    (h : args.text = some t) (h2 : t ≠ "") : getText args e = (t, []) := by
  simp [getText, h, h2]

/-- With `--text` absent or empty, the text is the stripped stdin. -/
theorem getText_stdin (args : Args) (e : Env)
    (h : args.text = none ∨ args.text = some "") :
    getText args e = (pyStrip e.stdin, [.readStdin]) := by
  rcases h with h | h <;> simp [getText, h]

/-- With a backend available but empty effective text, the run stops with
the empty-input error and exit status 1, before any synthesis. -/
theorem run_empty_text (args : Args) (e : Env) (evts : List Event)
    (hav : e.onnxAvailable = true ∨ e.kokoroAvailable = true)
    (h : getText args e = ("", evts)) :
    run args e = (1, importEvents e ++ evts ++ [errJson args.infoOnly emptyInputMsg]) := by
  have hb : (!e.onnxAvailable && !e.kokoroAvailable) = false := by
    rcases hav with h' | h' <;> simp [h']
  simp [run, hb, h]

/-- With a backend available and non-empty text, a failing synthesis ends
the run with the wrapped error message and exit status 1. -/
theorem run_synth_error (args : Args) (e : Env) (text : String)
    (evts : List Event) (msg : String)
    (hav : e.onnxAvailable = true ∨ e.kokoroAvailable = true)
    (h : getText args e = (text, evts)) (ht : text ≠ "")
    (hs : (synth e.onnxAvailable args e text).2 = .error msg) :
    run args e = (1, importEvents e ++ evts ++ (synth e.onnxAvailable args e text).1 ++
      [errJson args.infoOnly ("Synthesis failed: " ++ msg)]) := by
  have hb : (!e.onnxAvailable && !e.kokoroAvailable) = false := by
    rcases hav with h' | h' <;> simp [h']
  rcases hsp : synth e.onnxAvailable args e text with ⟨sEvts, res⟩
  rw [hsp] at hs
  simp only at hs
  subst hs
  simp [run, hb, h, ht, hsp]

/-- With a backend available, non-empty text and successful synthesis, the
run appends the output-routing events to the prelude. -/
theorem run_synth_ok (args : Args) (e : Env) (text : String)
    (evts : List Event) (audio : List Nat) (rate : Nat)
    (hav : e.onnxAvailable = true ∨ e.kokoroAvailable = true)
    (h : getText args e = (text, evts)) (ht : text ≠ "")
    (hs : (synth e.onnxAvailable args e text).2 = .ok (audio, rate)) :
    run args e = ((writeOutput args e audio rate).1,
      importEvents e ++ evts ++ (synth e.onnxAvailable args e text).1 ++
        (writeOutput args e audio rate).2) := by
  have hb : (!e.onnxAvailable && !e.kokoroAvailable) = false := by
    rcases hav with h' | h' <;> simp [h']
  rcases hsp : synth e.onnxAvailable args e text with ⟨sEvts, res⟩
  rw [hsp] at hs
  simp only at hs
  subst hs
  simp [run, hb, h, ht, hsp]

/-- The synthesis step emits exactly one backend-invocation event. -/
theorem synth_events (useOnnx : Bool) (args : Args) (e : Env) (text : String) :
    (synth useOnnx args e text).1 = [.invokeOnnx text args.voice args.speed] ∨
    (synth useOnnx args e text).1 = [.invokePipeline args.lang text args.voice args.speed] := by
  cases useOnnx <;> simp [synth]

/-- The possible shapes of the prelude components. -/
theorem importEvents_cases (e : Env) :
    importEvents e = [.tryImportOnnx] ∨
    importEvents e = [.tryImportOnnx, .tryImportKokoro] := by
  by_cases h : e.onnxAvailable = true <;> simp [importEvents, h]

/-- `getText` emits either no event or a single stdin read. -/
theorem getText_events (args : Args) (e : Env) :
    (getText args e).2 = [] ∨ (getText args e).2 = [.readStdin] := by
  rcases ht : args.text with _ | t
  · simp [getText, ht]
  · by_cases h : t = "" <;> simp [getText, ht, h]

/-! ### Properties of `replaceAll` / `opusPath` -/

/-- `replaceAll` at an occurrence of the pattern: the replacement is
emitted and scanning resumes after the occurrence. -/
theorem replaceAll_cons_match (pat rep : List Char) (hne : pat ≠ [])
    (t : List Char) :
    replaceAll pat rep (pat ++ t) = rep ++ replaceAll pat rep t := by
  rcases pat with _ | ⟨ph, pt⟩
  · exact absurd rfl hne
  · rw [List.cons_append]
    show replaceAllAux (ph :: pt) rep 0 (ph :: (pt ++ t)) = _
    rw [replaceAllAux,
      if_pos (List.isPrefixOf_iff_prefix.mpr (by exact ⟨t, by simp⟩))]
    simp only [List.length_cons, Nat.add_sub_cancel]
    exact congrArg (rep ++ ·) (replaceAllAux_skip (ph :: pt) rep pt t)

/-- Replacement by a pattern at least as long never shortens the list. -/
theorem replaceAll_length_ge (pat rep : List Char) (hne : pat ≠ [])
    (hl : pat.length ≤ rep.length) (s : List Char) :
    s.length ≤ (replaceAll pat rep s).length := by
  have hplen : 1 ≤ pat.length := by
    rcases pat with _ | _
    · exact absurd rfl hne
    · simp
  suffices h : ∀ n (s : List Char), s.length ≤ n →
      s.length ≤ (replaceAll pat rep s).length from h s.length s le_rfl
  intro n
  induction n with
  | zero =>
    intro s hs
    rcases s with _ | ⟨c, rest⟩
    · rw [replaceAll_nil]
    · simp at hs
  | succ n ih =>
    intro s hs
    rcases s with _ | ⟨c, rest⟩
    · rw [replaceAll_nil]
    · by_cases hp : pat.isPrefixOf (c :: rest) = true
      · obtain ⟨t, htt⟩ := List.isPrefixOf_iff_prefix.mp hp
        have hlen : pat.length + t.length = rest.length + 1 := by
          have := congrArg List.length htt
          simpa using this
        have hrec := ih t (by simp at hs; omega)
        rw [← htt, replaceAll_cons_match pat rep hne t]
        simp only [List.length_append]
        omega
      · rw [replaceAll_cons_no_match pat rep c rest hp]
        have hrec := ih rest (by simp at hs; omega)
        simp only [List.length_cons]
        omega

/-- Replacement by a strictly longer pattern strictly lengthens the list
when the pattern occurs in it. -/
theorem replaceAll_length_lt (pat rep : List Char) (hne : pat ≠ [])
    (hl : pat.length < rep.length) (s : List Char) (hocc : pat <:+: s) :
    s.length < (replaceAll pat rep s).length := by
  suffices h : ∀ n (s : List Char), s.length ≤ n → pat <:+: s →
      s.length < (replaceAll pat rep s).length from h s.length s le_rfl hocc
  intro n
  induction n with
  | zero =>
    intro s hs hocc'
    rcases s with _ | ⟨c, rest⟩
    · rcases hocc' with ⟨l, r, hl'⟩
      rcases pat with _ | _
      · exact absurd rfl hne
      · simp at hl'
    · simp at hs
  | succ n ih =>
    intro s hs hocc'
    rcases s with _ | ⟨c, rest⟩
    · rcases hocc' with ⟨l, r, hl'⟩
      rcases pat with _ | _
      · exact absurd rfl hne
      · simp at hl'
    · by_cases hp : pat.isPrefixOf (c :: rest) = true
      · obtain ⟨t, htt⟩ := List.isPrefixOf_iff_prefix.mp hp
        have hlen : pat.length + t.length = rest.length + 1 := by
          have := congrArg List.length htt
          simpa using this
        have hrec := replaceAll_length_ge pat rep hne (le_of_lt hl) t
        rw [← htt, replaceAll_cons_match pat rep hne t]
        simp only [List.length_append]
        omega
      · have hocc'' : pat <:+: rest := by
          rcases hocc' with ⟨l, r, hl'⟩
          rcases l with _ | ⟨c', l'⟩
          · exact absurd (List.isPrefixOf_iff_prefix.mpr ⟨r, hl'⟩) (by simpa using hp)
          · simp only [List.cons_append] at hl'
            exact ⟨l', r, (List.cons.injEq _ _ _ _ ▸ hl').2⟩
        rw [replaceAll_cons_no_match pat rep c rest hp]
        have hrec := ih rest (by simp at hs; omega) hocc''
        simp only [List.length_cons]
        omega

/-- When the pattern does not occur in the list, replacement is the
identity. -/
theorem replaceAll_no_occurrence (pat rep : List Char) (s : List Char)
    (h : ¬ pat <:+: s) : replaceAll pat rep s = s := by
  induction s with
  | nil => rw [replaceAll_nil]
  | cons c rest ih =>
    have hp : ¬ pat.isPrefixOf (c :: rest) = true := by
      intro hp
      exact h (List.isPrefixOf_iff_prefix.mp hp).isInfix
    rw [replaceAll_cons_no_match pat rep c rest hp, ih fun h' => h (by
      rcases h' with ⟨l, r, hl'⟩
      exact ⟨c :: l, r, by simp [hl']⟩)]

/-- A path with `".wav"` as a suffix is changed by `opusPath`. -/
theorem opusPath_ne_of_wav_suffix (p : String) (h : ".wav".data <:+ p.data) :
    opusPath p ≠ p := by
  intro heq
  have hlen : p.data.length < (replaceAll ".wav".data ".opus".data p.data).length :=
    replaceAll_length_lt _ _ (by decide) (by decide) _ h.isInfix
  have h2 : replaceAll ".wav".data ".opus".data p.data = p.data :=
    congrArg String.data heq
  have := congrArg List.length h2
  omega

/-- A path in which `".wav"` does not occur is unchanged by `opusPath`. -/
theorem opusPath_eq_of_no_occurrence (p : String) (h : ¬ ".wav".data <:+: p.data) :
    opusPath p = p := by
  rcases p with ⟨l⟩
  rw [opusPath]
  exact congrArg String.mk (replaceAll_no_occurrence _ _ _ h)

/-- The ONNX branch of `synth` on a successful `model.create` call. -/
theorem synth_onnx_ok (args : Args) (e : Env) (text : String)
    (samples : List ℚ) (rate : Nat)
    (h : e.onnx text args.voice args.speed = .ok (samples, rate)) :
    synth true args e text =
      ([.invokeOnnx text args.voice args.speed], .ok (audioBytes samples, rate)) := by
  simp [synth, h]

/-- The output routing of a successful opus-format file run. -/
theorem writeOutput_opus_ok (args : Args) (e : Env) (audio : List Nat)
    (rate : Nat) (p : String)
    (hinfo : args.infoOnly = false) (hout : args.output = some p)
    (hfmt : args.format = "opus") (hff : e.ffmpegExit = 0) :
    writeOutput args e audio rate =
      (0, [.writeFile p (wavBytes rate audio), .runFfmpeg p (opusPath p) true,
           .deleteFile p,
           .stderrJson (.fileObj (opusPath p) (duration audio.length rate))]) := by
  simp [writeOutput, hinfo, hout, hfmt, hff]

/-- The output routing of an opus-format file run whose encoder fails. -/
theorem writeOutput_opus_fail (args : Args) (e : Env) (audio : List Nat)
    (rate : Nat) (p : String)
    (hinfo : args.infoOnly = false) (hout : args.output = some p)
    (hfmt : args.format = "opus") (hff : e.ffmpegExit ≠ 0) :
    writeOutput args e audio rate =
      (1, [.writeFile p (wavBytes rate audio), .runFfmpeg p (opusPath p) false,
           .stderrJson (.errObj ("Synthesis failed: " ++
             calledProcessErrorMsg e.ffmpegExit))]) := by
  simp [writeOutput, hinfo, hout, hfmt, hff, errJson]

/-! ### Concrete environments used to instantiate the theorems -/

/-- An environment where only the ONNX backend is importable and synthesis
yields two samples at 24000 Hz. -/
def envOnnxOk : Env where
  onnxAvailable := true
  kokoroAvailable := false
  stdin := "hello"
  onnx := fun _ _ _ => .ok ([(1 : ℚ)/2, -(1 : ℚ)/4], 24000)
  pipeline := fun _ _ _ _ => .ok [[(1 : ℚ)/2]]
  ffmpegExit := 0

/-- `envOnnxOk` with a failing opus encoder (exit code 1). -/
def envFfmpegFail : Env :=
  { envOnnxOk with ffmpegExit := 1 }

/-- An environment where only the full-pipeline backend is importable and
it yields two chunks. -/
def envPipelineOk : Env where
  onnxAvailable := false
  kokoroAvailable := true
  stdin := "hello"
  onnx := fun _ _ _ => .error "unreachable"
  pipeline := fun _ _ _ _ => .ok [[(1 : ℚ)/2], [-(1 : ℚ)/4, 0]]
  ffmpegExit := 0

/-- `envPipelineOk` but the pipeline yields zero chunks. -/
def envPipelineEmpty : Env :=
  { envPipelineOk with pipeline := fun _ _ _ _ => .ok [] }

/-- An environment where neither backend library is importable. -/
def envNoBackend : Env :=
  { envOnnxOk with onnxAvailable := false, kokoroAvailable := false }

/-! ### The claims -/

/-- **C1.** For every run with the `--info-only` flag set, the program never
writes audio bytes to any output stream, and it writes exactly one JSON
object to standard output: a success object
`{success, sample_rate, duration, format: "pcm_s16le", size}` when
synthesis succeeds, or an error object when it fails. -/
theorem run_info_only_writes_one_json (args : Args) (e : Env)
    (h : args.infoOnly = true) :
    (stdoutJsons (run args e).2).length = 1 ∧
    audioByteWrites (run args e).2 = [] ∧
    ((run args e).1 = 0 → ∃ r d sz, stdoutJsons (run args e).2 = [JOut.infoObj r d sz]) ∧
    ((run args e).1 ≠ 0 → ∃ m, stdoutJsons (run args e).2 = [JOut.errObj m]) := by
  by_cases hav : e.onnxAvailable = true ∨ e.kokoroAvailable = true
  · rcases hgt : getText args e with ⟨text, evts⟩
    have hge := getText_events args e
    rw [hgt] at hge
    simp only at hge
    by_cases hte : text = ""
    · subst hte
      rw [run_empty_text args e evts hav hgt]
      rcases importEvents_cases e with hi | hi <;> rcases hge with hg | hg <;>
        subst hg <;>
        simp [hi, stdoutJsons, audioByteWrites, errJson, h]
    · rcases hs : (synth e.onnxAvailable args e text).2 with msg | ⟨audio, rate⟩
      · rw [run_synth_error args e text evts msg hav hgt hte hs]
        rcases synth_events e.onnxAvailable args e text with hv | hv <;>
          rcases importEvents_cases e with hi | hi <;> rcases hge with hg | hg <;>
          subst hg <;>
          simp [hi, hv, stdoutJsons, audioByteWrites, errJson, h]
      · rw [run_synth_ok args e text evts audio rate hav hgt hte hs]
        rcases synth_events e.onnxAvailable args e text with hv | hv <;>
          rcases importEvents_cases e with hi | hi <;> rcases hge with hg | hg <;>
          subst hg <;>
          simp [hi, hv, stdoutJsons, audioByteWrites, writeOutput, h]
  · push_neg at hav
    rw [run_no_backend args e (by simpa using hav.1) (by simpa using hav.2)]
    simp [stdoutJsons, audioByteWrites, errJson, h]

/-- Instantiation of the C1 theorem: info-only run in `envOnnxOk`. -/
theorem run_info_only_writes_one_json_witness :
    (stdoutJsons (run { infoOnly := true } envOnnxOk).2).length = 1 ∧
    audioByteWrites (run { infoOnly := true } envOnnxOk).2 = [] ∧
    ((run { infoOnly := true } envOnnxOk).1 = 0 →
      ∃ r d sz, stdoutJsons (run { infoOnly := true } envOnnxOk).2 = [JOut.infoObj r d sz]) ∧
    ((run { infoOnly := true } envOnnxOk).1 ≠ 0 →
      ∃ m, stdoutJsons (run { infoOnly := true } envOnnxOk).2 = [JOut.errObj m]) :=
  run_info_only_writes_one_json { infoOnly := true } envOnnxOk rfl

/-- **C2.** For every successful run with `--format opus` and `--output`
set to a path ending in ".wav", the program produces the corresponding
".opus" file, the intermediate WAV file no longer exists afterward, and
the JSON status object written to standard error reports the ".opus" path
as the output file. -/
theorem run_opus_replaces_wav (args : Args) (e : Env) (p text : String)
    (evts : List Event) (audio : List Nat) (rate : Nat)
    (hinfo : args.infoOnly = false) (hout : args.output = some p)
    (hfmt : args.format = "opus") (hsuf : ".wav".data <:+ p.data)
    (hav : e.onnxAvailable = true ∨ e.kokoroAvailable = true)
    (hgt : getText args e = (text, evts)) (hte : text ≠ "")
    (hs : (synth e.onnxAvailable args e text).2 = .ok (audio, rate))
    (hff : e.ffmpegExit = 0) :
    (run args e).1 = 0 ∧
    finalFiles (run args e).2 = [opusPath p] ∧
    p ∉ finalFiles (run args e).2 ∧
    stderrJsons (run args e).2 =
      [JOut.fileObj (opusPath p) (duration audio.length rate)] := by
  have hne : opusPath p ≠ p := opusPath_ne_of_wav_suffix p hsuf
  have hge := getText_events args e
  rw [hgt] at hge
  simp only at hge
  rw [run_synth_ok args e text evts audio rate hav hgt hte hs,
    writeOutput_opus_ok args e audio rate p hinfo hout hfmt hff]
  rcases synth_events e.onnxAvailable args e text with hv | hv <;>
    rcases importEvents_cases e with hi | hi <;> rcases hge with hg | hg <;>
    subst hg <;>
    simp [hi, hv, finalFiles, applyEvent, stderrJsons, hne, Ne.symm hne]

/-- Instantiation of the C2 theorem: `--output set.wav --format opus` in
`envOnnxOk` produces `set.opus` and deletes `set.wav`. -/
theorem run_opus_replaces_wav_witness :
    (run { output := some "set.wav", format := "opus", text := some "hi" } envOnnxOk).1 = 0 ∧
    finalFiles (run { output := some "set.wav", format := "opus", text := some "hi" } envOnnxOk).2 = [opusPath "set.wav"] ∧
    "set.wav" ∉ finalFiles (run { output := some "set.wav", format := "opus", text := some "hi" } envOnnxOk).2 ∧
    stderrJsons (run { output := some "set.wav", format := "opus", text := some "hi" } envOnnxOk).2 =
      [JOut.fileObj (opusPath "set.wav")
        (duration (audioBytes [(1 : ℚ)/2, -(1 : ℚ)/4]).length 24000)] :=
  run_opus_replaces_wav _ envOnnxOk "set.wav" "hi" [] (audioBytes [(1 : ℚ)/2, -(1 : ℚ)/4]) 24000
    rfl rfl rfl (by decide) (Or.inl rfl) rfl (by decide) rfl rfl

/-- **C3 (counterexample).** The claim "if the opus-transcoding subprocess
exits non-zero the process exits with status 1, no success report is
emitted, and no output artifact is left behind as partial output" is false
at `--output out.wav --format opus` with a failing encoder: the process
does exit 1 and emits only the error report, but the intermediate WAV file
written at `out.wav` is left behind (`os.unlink` is only reached after a
successful encoder run). -/
theorem run_opus_fail_partial_output_cex :
    (run { output := some "out.wav", format := "opus", text := some "hi" } envFfmpegFail).1 = 1 ∧
    stderrJsons (run { output := some "out.wav", format := "opus", text := some "hi" } envFfmpegFail).2 =
      [JOut.errObj ("Synthesis failed: " ++ calledProcessErrorMsg 1)] ∧
    finalFiles (run { output := some "out.wav", format := "opus", text := some "hi" } envFfmpegFail).2 =
      ["out.wav"] ∧
    ¬ finalFiles (run { output := some "out.wav", format := "opus", text := some "hi" } envFfmpegFail).2 = [] := by
  refine ⟨by decide, by decide, by decide, by decide⟩

/-- **C3 (amended).** If the opus-transcoding subprocess exits non-zero the
process exits with status 1 and no success report is emitted, but the
intermediate WAV file at the `--output` path is left behind as partial
output. -/
theorem run_opus_fail_leaves_wav (args : Args) (e : Env) (p text : String)
    (evts : List Event) (audio : List Nat) (rate : Nat)
    (hinfo : args.infoOnly = false) (hout : args.output = some p)
    (hfmt : args.format = "opus")
    (hav : e.onnxAvailable = true ∨ e.kokoroAvailable = true)
    (hgt : getText args e = (text, evts)) (hte : text ≠ "")
    (hs : (synth e.onnxAvailable args e text).2 = .ok (audio, rate))
    (hff : e.ffmpegExit ≠ 0) :
    (run args e).1 = 1 ∧
    (∀ j ∈ stdoutJsons (run args e).2, isSuccessObj j = false) ∧
    (∀ j ∈ stderrJsons (run args e).2, isSuccessObj j = false) ∧
    finalFiles (run args e).2 = [p] := by
  have hge := getText_events args e
  rw [hgt] at hge
  simp only at hge
  rw [run_synth_ok args e text evts audio rate hav hgt hte hs,
    writeOutput_opus_fail args e audio rate p hinfo hout hfmt hff]
  rcases synth_events e.onnxAvailable args e text with hv | hv <;>
    rcases importEvents_cases e with hi | hi <;> rcases hge with hg | hg <;>
    subst hg <;>
    simp [hi, hv, finalFiles, applyEvent, stdoutJsons, stderrJsons, isSuccessObj]

/-- Instantiation of the amended C3 theorem in `envFfmpegFail`. -/
theorem run_opus_fail_leaves_wav_witness :
    (run { output := some "out.wav", format := "opus", text := some "hi" } envFfmpegFail).1 = 1 ∧
    (∀ j ∈ stdoutJsons (run { output := some "out.wav", format := "opus", text := some "hi" } envFfmpegFail).2,
      isSuccessObj j = false) ∧
    (∀ j ∈ stderrJsons (run { output := some "out.wav", format := "opus", text := some "hi" } envFfmpegFail).2,
      isSuccessObj j = false) ∧
    finalFiles (run { output := some "out.wav", format := "opus", text := some "hi" } envFfmpegFail).2 =
      ["out.wav"] :=
  run_opus_fail_leaves_wav _ envFfmpegFail "out.wav" "hi" []
    (audioBytes [(1 : ℚ)/2, -(1 : ℚ)/4]) 24000
    rfl rfl rfl (Or.inl rfl) rfl (by decide) rfl (by decide)

/-- An environment with whitespace-only stdin and neither backend library
importable. -/
def envNoBackendWS : Env :=
  { envNoBackend with stdin := "   " }

/-- **C4 (counterexample).** The claim "for every run where the `--text`
flag is absent or empty and the stripped standard-input text is empty, the
program fails with the EmptyInput error" is false when neither backend
library is importable: the imports are attempted before any input is read,
so the run fails with the backend-unavailable error instead. -/
theorem run_empty_input_error_cex :
    (({} : Args).text = none) ∧
    pyStrip envNoBackendWS.stdin = "" ∧
    (run {} envNoBackendWS).1 = 1 ∧
    stderrJsons (run {} envNoBackendWS).2 = [JOut.errObj backendUnavailableMsg] ∧
    ¬ (JOut.errObj emptyInputMsg ∈ stdoutJsons (run {} envNoBackendWS).2 ∨
       JOut.errObj emptyInputMsg ∈ stderrJsons (run {} envNoBackendWS).2) := by
  refine ⟨by decide, by decide, by decide, by decide, by decide⟩

/-- **C4 (amended).** For every run where at least one backend library is
importable, the `--text` flag is absent or empty, and the stripped
standard-input text is empty, the program fails with the EmptyInput error
before any backend is invoked, writing the error JSON to standard output
in info-only mode and to standard error otherwise, and exits with
status 1. -/
theorem run_empty_input_error (args : Args) (e : Env)
    (hav : e.onnxAvailable = true ∨ e.kokoroAvailable = true)
    (htext : args.text = none ∨ args.text = some "")
    (hstdin : pyStrip e.stdin = "") :
    (run args e).1 = 1 ∧
    (args.infoOnly = true →
      stdoutJsons (run args e).2 = [JOut.errObj emptyInputMsg] ∧
      stderrJsons (run args e).2 = []) ∧
    (args.infoOnly = false →
      stderrJsons (run args e).2 = [JOut.errObj emptyInputMsg] ∧
      stdoutJsons (run args e).2 = []) ∧
    (run args e).2.countP isOnnxInvocation = 0 ∧
    (run args e).2.countP isPipelineInvocation = 0 := by
  have hgt : getText args e = ("", [.readStdin]) := by
    rw [getText_stdin args e htext, hstdin]
  rw [run_empty_text args e [.readStdin] hav hgt]
  rcases importEvents_cases e with hi | hi <;>
    cases hio : args.infoOnly <;>
    simp [hi, hio, stdoutJsons, stderrJsons, errJson,
      isOnnxInvocation, isPipelineInvocation, List.countP_cons]

/-- Instantiation of the amended C4 theorem: ONNX backend importable,
whitespace-only stdin, no `--text`. -/
theorem run_empty_input_error_witness :
    (run {} { envOnnxOk with stdin := " \n " }).1 = 1 ∧
    ((({} : Args)).infoOnly = true →
      stdoutJsons (run {} { envOnnxOk with stdin := " \n " }).2 = [JOut.errObj emptyInputMsg] ∧
      stderrJsons (run {} { envOnnxOk with stdin := " \n " }).2 = []) ∧
    ((({} : Args)).infoOnly = false →
      stderrJsons (run {} { envOnnxOk with stdin := " \n " }).2 = [JOut.errObj emptyInputMsg] ∧
      stdoutJsons (run {} { envOnnxOk with stdin := " \n " }).2 = []) ∧
    (run {} { envOnnxOk with stdin := " \n " }).2.countP isOnnxInvocation = 0 ∧
    (run {} { envOnnxOk with stdin := " \n " }).2.countP isPipelineInvocation = 0 :=
  run_empty_input_error {} { envOnnxOk with stdin := " \n " }
    (Or.inl rfl) (Or.inl rfl) (by decide)

/-- Whether an event is an output-stage effect (a JSON or byte write, a
file operation or the encoder subprocess). -/
def isOutputEvent : Event → Bool
  | .stdoutJson _ => true
  | .stderrJson _ => true
  | .stdoutBytes _ => true
  | .writeFile _ _ => true
  | .runFfmpeg _ _ _ => true
  | .deleteFile _ => true
  | _ => false

/-- Error reports are output events on either channel. -/
theorem errJson_isOutput (io : Bool) (m : String) :
    isOutputEvent (errJson io m) = true := by
  cases io <;> rfl

/-- Every event emitted by the output-routing stage is an output event. -/
theorem writeOutput_events_output (args : Args) (e : Env) (audio : List Nat)
    (rate : Nat) :
    ∀ ev ∈ (writeOutput args e audio rate).2, isOutputEvent ev = true := by
  intro ev hev
  cases hio : args.infoOnly <;> rcases hout : args.output with _ | p
  all_goals by_cases hfmt : args.format = "opus"
  all_goals by_cases hff : e.ffmpegExit = 0
  all_goals simp [writeOutput, errJson, hio, hout, hfmt, hff] at hev
  all_goals first
    | (rcases hev with rfl | rfl | rfl | rfl <;> rfl)
    | (rcases hev with rfl | rfl | rfl <;> rfl)
    | (rcases hev with rfl | rfl <;> rfl)
    | (rcases hev with rfl <;> rfl)

/-- A list of output events contains no import, stdin-read or
backend-invocation event. -/
theorem output_events_facts (L : List Event)
    (h : ∀ ev ∈ L, isOutputEvent ev = true) :
    L.countP isOnnxInvocation = 0 ∧ L.countP isPipelineInvocation = 0 ∧
    Event.tryImportKokoro ∉ L ∧ Event.readStdin ∉ L := by
  refine ⟨List.countP_eq_zero.mpr ?_, List.countP_eq_zero.mpr ?_, ?_, ?_⟩
  · intro ev hev
    have := h ev hev
    cases ev <;> simp_all [isOutputEvent, isOnnxInvocation]
  · intro ev hev
    have := h ev hev
    cases ev <;> simp_all [isOutputEvent, isPipelineInvocation]
  · intro hmem
    exact absurd (h _ hmem) (by simp [isOutputEvent])
  · intro hmem
    exact absurd (h _ hmem) (by simp [isOutputEvent])

/-- The second import is attempted exactly when the first failed. -/
theorem mem_importEvents_kokoro (e : Env) :
    Event.tryImportKokoro ∈ importEvents e ↔ e.onnxAvailable = false := by
  by_cases h : e.onnxAvailable = true <;> simp [importEvents, h] <;> simp_all

/-- The invocation event of the synthesis step matches the selected
backend. -/
theorem synth_fst (useOnnx : Bool) (args : Args) (e : Env) (text : String) :
    (synth useOnnx args e text).1 =
      if useOnnx then [.invokeOnnx text args.voice args.speed]
      else [.invokePipeline args.lang text args.voice args.speed] := by
  cases useOnnx <;> simp [synth]

/-- **C5.** On every run the program first attempts to acquire the
lightweight ONNX backend, attempts the full-pipeline backend only if the
first is unavailable, and when neither is available fails with
BackendUnavailable before reading any input; for any valid input exactly
one of the two backends is invoked, never both. -/
theorem run_backend_selection (args : Args) (e : Env) (text : String)
    (evts : List Event) (hgt : getText args e = (text, evts)) :
    (run args e).2.head? = some Event.tryImportOnnx ∧
    (Event.tryImportKokoro ∈ (run args e).2 ↔ e.onnxAvailable = false) ∧
    (e.onnxAvailable = false → e.kokoroAvailable = false →
      (run args e).1 = 1 ∧ Event.readStdin ∉ (run args e).2 ∧
      (JOut.errObj backendUnavailableMsg ∈ stdoutJsons (run args e).2 ∨
       JOut.errObj backendUnavailableMsg ∈ stderrJsons (run args e).2)) ∧
    ((run args e).2.countP isOnnxInvocation = 0 ∨
     (run args e).2.countP isPipelineInvocation = 0) ∧
    ((e.onnxAvailable = true ∨ e.kokoroAvailable = true) → text ≠ "" →
      (run args e).2.countP isOnnxInvocation +
        (run args e).2.countP isPipelineInvocation = 1) := by
  by_cases hav : e.onnxAvailable = true ∨ e.kokoroAvailable = true
  · have hge := getText_events args e
    rw [hgt] at hge
    simp only at hge
    by_cases hte : text = ""
    · subst hte
      rw [run_empty_text args e evts hav hgt]
      cases hio : args.infoOnly <;> cases ho : e.onnxAvailable <;>
        rcases hge with hg | hg <;> subst hg <;>
        simp [importEvents, ho, hio, errJson, stdoutJsons, stderrJsons,
          isOnnxInvocation, isPipelineInvocation, List.countP_cons] <;>
        (rcases hav with h | h <;> simp_all)
    · have hv := synth_fst e.onnxAvailable args e text
      rcases hs : (synth e.onnxAvailable args e text).2 with msg | ⟨audio, rate⟩
      · rw [run_synth_error args e text evts msg hav hgt hte hs]
        cases ho : e.onnxAvailable <;> rw [ho] at hv <;>
          cases hio : args.infoOnly <;>
          rcases hge with hg | hg <;> subst hg <;>
          simp [importEvents, ho, hio, hv, errJson, stdoutJsons, stderrJsons,
            isOnnxInvocation, isPipelineInvocation, List.countP_cons] <;>
          (rcases hav with h | h <;> simp_all)
      · rw [run_synth_ok args e text evts audio rate hav hgt hte hs]
        have hwo := output_events_facts _ (writeOutput_events_output args e audio rate)
        cases ho : e.onnxAvailable <;> rw [ho] at hv <;>
          rcases hge with hg | hg <;> subst hg <;>
          simp [importEvents, ho, hv, List.countP_append, List.countP_cons,
            isOnnxInvocation, isPipelineInvocation, hwo.1, hwo.2.1,
            hwo.2.2.1, hwo.2.2.2, stdoutJsons, stderrJsons] <;>
          (rcases hav with h | h <;> simp_all)
  · push_neg at hav
    have ho : e.onnxAvailable = false := by simpa using hav.1
    have hk : e.kokoroAvailable = false := by simpa using hav.2
    rw [run_no_backend args e ho hk]
    cases hio : args.infoOnly <;>
      simp [hio, errJson, ho, hk, stdoutJsons, stderrJsons,
        isOnnxInvocation, isPipelineInvocation, List.countP_cons]

/-- Instantiation of the C5 theorem at `--text hi` in `envOnnxOk`. -/
theorem run_backend_selection_witness :
    (run { text := some "hi" } envOnnxOk).2.head? = some Event.tryImportOnnx ∧
    (Event.tryImportKokoro ∈ (run { text := some "hi" } envOnnxOk).2 ↔
      envOnnxOk.onnxAvailable = false) ∧
    (envOnnxOk.onnxAvailable = false → envOnnxOk.kokoroAvailable = false →
      (run { text := some "hi" } envOnnxOk).1 = 1 ∧
      Event.readStdin ∉ (run { text := some "hi" } envOnnxOk).2 ∧
      (JOut.errObj backendUnavailableMsg ∈ stdoutJsons (run { text := some "hi" } envOnnxOk).2 ∨
       JOut.errObj backendUnavailableMsg ∈ stderrJsons (run { text := some "hi" } envOnnxOk).2)) ∧
    ((run { text := some "hi" } envOnnxOk).2.countP isOnnxInvocation = 0 ∨
     (run { text := some "hi" } envOnnxOk).2.countP isPipelineInvocation = 0) ∧
    ((envOnnxOk.onnxAvailable = true ∨ envOnnxOk.kokoroAvailable = true) →
      "hi" ≠ "" →
      (run { text := some "hi" } envOnnxOk).2.countP isOnnxInvocation +
        (run { text := some "hi" } envOnnxOk).2.countP isPipelineInvocation = 1) :=
  run_backend_selection { text := some "hi" } envOnnxOk "hi" [] rfl

/-- The output routing of an info-only success. -/
theorem writeOutput_info (args : Args) (e : Env) (audio : List Nat)
    (rate : Nat) (hinfo : args.infoOnly = true) :
    writeOutput args e audio rate =
      (0, [.stdoutJson (.infoObj rate (duration audio.length rate) audio.length)]) := by
  simp [writeOutput, hinfo]

/-- The output routing of a plain (non-opus) file-mode success. -/
theorem writeOutput_file_wav (args : Args) (e : Env) (audio : List Nat)
    (rate : Nat) (p : String)
    (hinfo : args.infoOnly = false) (hout : args.output = some p)
    (hfmt : args.format ≠ "opus") :
    writeOutput args e audio rate =
      (0, [.writeFile p (wavBytes rate audio),
           .stderrJson (.fileObj p (duration audio.length rate))]) := by
  simp [writeOutput, hinfo, hout, hfmt]

/-- **C6.** For every run using the full-pipeline backend, if the pipeline
produces zero audio chunks the program fails with error kind
NoAudioGenerated; otherwise all produced chunks are concatenated in order
and a fixed sample rate of 24000 is used for this backend. -/
theorem run_pipeline_chunks (args : Args) (e : Env) (text : String)
    (evts : List Event) (chunks : List (List ℚ))
    (ho : e.onnxAvailable = false) (hk : e.kokoroAvailable = true)
    (hgt : getText args e = (text, evts)) (hte : text ≠ "")
    (hp : e.pipeline args.lang text args.voice args.speed = .ok chunks) :
    (chunks = [] →
      (run args e).1 = 1 ∧
      (JOut.errObj "Synthesis failed: No audio generated" ∈ stdoutJsons (run args e).2 ∨
       JOut.errObj "Synthesis failed: No audio generated" ∈ stderrJsons (run args e).2)) ∧
    (chunks ≠ [] →
      (synth e.onnxAvailable args e text).2 =
        .ok (audioBytes chunks.flatten, 24000)) := by
  constructor
  · intro hc
    subst hc
    have hs : (synth e.onnxAvailable args e text).2 = .error "No audio generated" := by
      simp [synth, ho, hp]
    rw [run_synth_error args e text evts _ (Or.inr hk) hgt hte hs]
    have hge := getText_events args e
    rw [hgt] at hge
    simp only at hge
    have hv := synth_fst e.onnxAvailable args e text
    rw [ho] at hv
    cases hio : args.infoOnly <;>
      rcases hge with hg | hg <;> subst hg <;>
      simp [importEvents, ho, hio, hv, errJson, stdoutJsons, stderrJsons]
  · intro hc
    simp [synth, ho, hp, hc]

/-- Instantiation of the C6 theorem: empty chunk list in
`envPipelineEmpty`. -/
theorem run_pipeline_chunks_witness :
    (([] : List (List ℚ)) = [] →
      (run { text := some "hi" } envPipelineEmpty).1 = 1 ∧
      (JOut.errObj "Synthesis failed: No audio generated" ∈
        stdoutJsons (run { text := some "hi" } envPipelineEmpty).2 ∨
       JOut.errObj "Synthesis failed: No audio generated" ∈
        stderrJsons (run { text := some "hi" } envPipelineEmpty).2)) ∧
    (([] : List (List ℚ)) ≠ [] →
      (synth envPipelineEmpty.onnxAvailable { text := some "hi" } envPipelineEmpty "hi").2 =
        .ok (audioBytes ([] : List (List ℚ)).flatten, 24000)) :=
  run_pipeline_chunks { text := some "hi" } envPipelineEmpty "hi" [] []
    rfl rfl rfl (by decide) rfl

/-- **C7.** For every PCM byte buffer of length L and sample rate R, the
duration reported in both the info-only JSON and the file-mode status JSON
equals L / (R * 2) exactly (rational arithmetic models the single float64
division of the source; no further rounding occurs). -/
theorem run_reports_exact_duration (args : Args) (e : Env) (text : String)
    (evts : List Event) (audio : List Nat) (rate : Nat) (p : String)
    (hav : e.onnxAvailable = true ∨ e.kokoroAvailable = true)
    (hgt : getText args e = (text, evts)) (hte : text ≠ "")
    (hs : (synth e.onnxAvailable args e text).2 = .ok (audio, rate)) :
    (args.infoOnly = true →
      stdoutJsons (run args e).2 =
        [JOut.infoObj rate ((audio.length : ℚ) / ((rate : ℚ) * 2)) audio.length]) ∧
    (args.infoOnly = false → args.output = some p → args.format ≠ "opus" →
      stderrJsons (run args e).2 =
        [JOut.fileObj p ((audio.length : ℚ) / ((rate : ℚ) * 2))]) ∧
    (args.infoOnly = false → args.output = some p → args.format = "opus" →
      e.ffmpegExit = 0 →
      stderrJsons (run args e).2 =
        [JOut.fileObj (opusPath p) ((audio.length : ℚ) / ((rate : ℚ) * 2))]) := by
  rw [run_synth_ok args e text evts audio rate hav hgt hte hs]
  have hge := getText_events args e
  rw [hgt] at hge
  simp only at hge
  refine ⟨?_, ?_, ?_⟩
  · intro hio
    rw [writeOutput_info args e audio rate hio]
    rcases synth_events e.onnxAvailable args e text with hv | hv <;>
      rcases importEvents_cases e with hi | hi <;>
      rcases hge with hg | hg <;> subst hg <;>
      simp [hi, hv, stdoutJsons, duration]
  · intro hio hout hfmt
    rw [writeOutput_file_wav args e audio rate p hio hout hfmt]
    rcases synth_events e.onnxAvailable args e text with hv | hv <;>
      rcases importEvents_cases e with hi | hi <;>
      rcases hge with hg | hg <;> subst hg <;>
      simp [hi, hv, stderrJsons, duration]
  · intro hio hout hfmt hff
    rw [writeOutput_opus_ok args e audio rate p hio hout hfmt hff]
    rcases synth_events e.onnxAvailable args e text with hv | hv <;>
      rcases importEvents_cases e with hi | hi <;>
      rcases hge with hg | hg <;> subst hg <;>
      simp [hi, hv, stderrJsons, duration]

/-- Instantiation of the C7 theorem: info-only run in `envOnnxOk`. -/
theorem run_reports_exact_duration_witness :
    (({ text := some "hi", infoOnly := true } : Args).infoOnly = true →
      stdoutJsons (run { text := some "hi", infoOnly := true } envOnnxOk).2 =
        [JOut.infoObj 24000
          (((audioBytes [(1 : ℚ)/2, -(1 : ℚ)/4]).length : ℚ) / ((24000 : ℚ) * 2))
          (audioBytes [(1 : ℚ)/2, -(1 : ℚ)/4]).length]) ∧
    (({ text := some "hi", infoOnly := true } : Args).infoOnly = false →
      ({ text := some "hi", infoOnly := true } : Args).output = some "o.wav" →
      ({ text := some "hi", infoOnly := true } : Args).format ≠ "opus" →
      stderrJsons (run { text := some "hi", infoOnly := true } envOnnxOk).2 =
        [JOut.fileObj "o.wav"
          (((audioBytes [(1 : ℚ)/2, -(1 : ℚ)/4]).length : ℚ) / ((24000 : ℚ) * 2))]) ∧
    (({ text := some "hi", infoOnly := true } : Args).infoOnly = false →
      ({ text := some "hi", infoOnly := true } : Args).output = some "o.wav" →
      ({ text := some "hi", infoOnly := true } : Args).format = "opus" →
      envOnnxOk.ffmpegExit = 0 →
      stderrJsons (run { text := some "hi", infoOnly := true } envOnnxOk).2 =
        [JOut.fileObj (opusPath "o.wav")
          (((audioBytes [(1 : ℚ)/2, -(1 : ℚ)/4]).length : ℚ) / ((24000 : ℚ) * 2))]) :=
  run_reports_exact_duration { text := some "hi", infoOnly := true } envOnnxOk
    "hi" [] (audioBytes [(1 : ℚ)/2, -(1 : ℚ)/4]) 24000 "o.wav"
    (Or.inl rfl) rfl (by decide) rfl

/-- `audioBytes` on a cons: the two bytes of the head sample followed by
the bytes of the rest. -/
theorem audioBytes_cons (s : ℚ) (rest : List ℚ) :
    audioBytes (s :: rest) =
      int16LE (astype16 (s * 32767)) ++ audioBytes rest := by
  simp [audioBytes]

/-- The PCM buffer holds two bytes per sample. -/
theorem audioBytes_length (samples : List ℚ) :
    (audioBytes samples).length = 2 * samples.length := by
  induction samples with
  | nil => rfl
  | cons s rest ih =>
    rw [audioBytes_cons]
    have h2 : (int16LE (astype16 (s * 32767))).length = 2 := rfl
    simp only [List.length_append, List.length_cons, h2, ih]
    ring

/-- **C8.** On both backend paths, every floating-point sample in the
synthesized buffer is quantized to a 16-bit signed integer by multiplying
it by 32767 and converting to int16 (truncation toward zero), and the
resulting PCM byte buffer is the little-endian byte sequence of these
integers: byte 2i is the low byte and byte 2i+1 the high byte of the
int16 wrap of the truncation of `samples[i] * 32767`. -/
theorem audioBytes_little_endian_quantization (samples : List ℚ) (i : Nat)
    (h : i < samples.length) :
    (audioBytes samples).length = 2 * samples.length ∧
    (audioBytes samples).get? (2 * i) =
      some ((((astype16 (samples.get ⟨i, h⟩ * 32767)) % 65536).toNat) % 256) ∧
    (audioBytes samples).get? (2 * i + 1) =
      some ((((astype16 (samples.get ⟨i, h⟩ * 32767)) % 65536).toNat) / 256) := by
  refine ⟨audioBytes_length samples, ?_⟩
  induction samples generalizing i with
  | nil => simp at h
  | cons s rest ih =>
    rcases i with _ | i
    · simp [audioBytes_cons, int16LE]
    · have hlt : i < rest.length := by simpa using h
      have hrec := ih i hlt
      rw [audioBytes_cons]
      have hlen2 : (int16LE (astype16 (s * 32767))).length = 2 := rfl
      constructor
      · rw [show 2 * (i + 1) = 2 * i + 2 by ring]
        rw [List.get?_append_right (by omega)]
        simpa [hlen2] using hrec.1
      · rw [show 2 * (i + 1) + 1 = (2 * i + 1) + 2 by ring]
        rw [List.get?_append_right (by omega)]
        simpa [hlen2] using hrec.2

/-- Instantiation of the C8 theorem at sample index 1 of a two-sample
buffer. -/
theorem audioBytes_little_endian_quantization_witness :
    (audioBytes [(1 : ℚ)/2, -(1 : ℚ)/4]).length = 2 * ([(1 : ℚ)/2, -(1 : ℚ)/4].length) ∧
    (audioBytes [(1 : ℚ)/2, -(1 : ℚ)/4]).get? (2 * 1) =
      some ((((astype16 (([(1 : ℚ)/2, -(1 : ℚ)/4].get ⟨1, by decide⟩) * 32767)) % 65536).toNat) % 256) ∧
    (audioBytes [(1 : ℚ)/2, -(1 : ℚ)/4]).get? (2 * 1 + 1) =
      some ((((astype16 (([(1 : ℚ)/2, -(1 : ℚ)/4].get ⟨1, by decide⟩) * 32767)) % 65536).toNat) / 256) :=
  audioBytes_little_endian_quantization [(1 : ℚ)/2, -(1 : ℚ)/4] 1 (by decide)

/-- A wrapped synthesis-failure message is never the empty-input
message (the prefix alone is longer). -/
theorem synthesis_failed_ne_empty_input (m : String) :
    "Synthesis failed: " ++ m ≠ emptyInputMsg := by
  intro hcontra
  have h2 := congrArg String.length hcontra
  rw [String.length_append] at h2
  have h3 : ("Synthesis failed: ").length = 18 := rfl
  have h4 : emptyInputMsg.length = 16 := rfl
  omega

/-- The output-routing stage never emits the empty-input error object on
either channel. -/
theorem writeOutput_no_empty_input_error (args : Args) (e : Env)
    (audio : List Nat) (rate : Nat) :
    JOut.errObj emptyInputMsg ∉ stdoutJsons (writeOutput args e audio rate).2 ∧
    JOut.errObj emptyInputMsg ∉ stderrJsons (writeOutput args e audio rate).2 := by
  cases hio : args.infoOnly <;> rcases hout : args.output with _ | p
  all_goals by_cases hfmt : args.format = "opus"
  all_goals by_cases hff : e.ffmpegExit = 0
  all_goals simp [writeOutput, errJson, hio, hout, hfmt, hff,
    stdoutJsons, stderrJsons]
  all_goals intro hcontra
  all_goals exact synthesis_failed_ne_empty_input _ hcontra.symm

/-- `stdoutJsons` distributes over concatenation. -/
theorem stdoutJsons_append (l1 l2 : List Event) :
    stdoutJsons (l1 ++ l2) = stdoutJsons l1 ++ stdoutJsons l2 := by
  simp [stdoutJsons]

/-- `stderrJsons` distributes over concatenation. -/
theorem stderrJsons_append (l1 l2 : List Event) :
    stderrJsons (l1 ++ l2) = stderrJsons l1 ++ stderrJsons l2 := by
  simp [stderrJsons]

/-- The empty trace emits no JSON. -/
theorem stdoutJsons_nil : stdoutJsons [] = [] := rfl

/-- The empty trace emits no JSON. -/
theorem stderrJsons_nil : stderrJsons [] = [] := rfl

/-- Import attempts emit no JSON. -/
theorem stdoutJsons_importEvents (e : Env) :
    stdoutJsons (importEvents e) = [] := by
  by_cases h : e.onnxAvailable = true <;> simp [importEvents, h, stdoutJsons]

/-- Import attempts emit no JSON. -/
theorem stderrJsons_importEvents (e : Env) :
    stderrJsons (importEvents e) = [] := by
  by_cases h : e.onnxAvailable = true <;> simp [importEvents, h, stderrJsons]

/-- The synthesis step emits no JSON. -/
theorem stdoutJsons_synth_fst (useOnnx : Bool) (args : Args) (e : Env)
    (text : String) : stdoutJsons (synth useOnnx args e text).1 = [] := by
  cases useOnnx <;> simp [synth, stdoutJsons]

/-- The synthesis step emits no JSON. -/
theorem stderrJsons_synth_fst (useOnnx : Bool) (args : Args) (e : Env)
    (text : String) : stderrJsons (synth useOnnx args e text).1 = [] := by
  cases useOnnx <;> simp [synth, stderrJsons]

/-- **C9.** The EmptyInput check strips whitespace only from text read
from standard input, never from the `--text` flag value: a `--text` value
consisting solely of whitespace is non-empty, bypasses the EmptyInput
error, and is passed to the backend verbatim, unstripped; standard input
is read at all only when `--text` is absent or an empty string. -/
theorem run_text_flag_verbatim (args : Args) (e : Env) (t : String) :
    (args.text = some t → t ≠ "" →
      getText args e = (t, []) ∧
      Event.readStdin ∉ (run args e).2 ∧
      JOut.errObj emptyInputMsg ∉ stdoutJsons (run args e).2 ∧
      JOut.errObj emptyInputMsg ∉ stderrJsons (run args e).2 ∧
      (e.onnxAvailable = true →
        Event.invokeOnnx t args.voice args.speed ∈ (run args e).2)) ∧
    (Event.readStdin ∈ (run args e).2 →
      args.text = none ∨ args.text = some "") := by
  have key : ∀ t' : String, args.text = some t' → t' ≠ "" →
      getText args e = (t', []) ∧
      Event.readStdin ∉ (run args e).2 ∧
      JOut.errObj emptyInputMsg ∉ stdoutJsons (run args e).2 ∧
      JOut.errObj emptyInputMsg ∉ stderrJsons (run args e).2 ∧
      (e.onnxAvailable = true →
        Event.invokeOnnx t' args.voice args.speed ∈ (run args e).2) := by
    intro t' htext hne
    have hgt : getText args e = (t', []) := getText_flag args e t' htext hne
    refine ⟨hgt, ?_⟩
    by_cases hav : e.onnxAvailable = true ∨ e.kokoroAvailable = true
    · have hv := synth_fst e.onnxAvailable args e t'
      rcases hs : (synth e.onnxAvailable args e t').2 with msg | ⟨audio, rate⟩
      · rw [run_synth_error args e t' [] msg hav hgt hne hs]
        cases ho : e.onnxAvailable <;> rw [ho] at hv <;>
          cases hio : args.infoOnly <;>
          simp [importEvents, ho, hio, hv, errJson, stdoutJsons, stderrJsons] <;>
          exact fun hcontra => synthesis_failed_ne_empty_input _ hcontra.symm
      · rw [run_synth_ok args e t' [] audio rate hav hgt hne hs]
        have hwo := output_events_facts _ (writeOutput_events_output args e audio rate)
        have hwoj := writeOutput_no_empty_input_error args e audio rate
        refine ⟨?_, ?_, ?_, ?_⟩
        · cases ho : e.onnxAvailable <;> rw [ho] at hv <;>
            simp [List.mem_append, importEvents, ho, hv, hwo.2.2.2]
        · simp only [stdoutJsons_append, stdoutJsons_importEvents,
            stdoutJsons_synth_fst, stdoutJsons_nil, List.append_nil,
            List.nil_append]
          exact hwoj.1
        · simp only [stderrJsons_append, stderrJsons_importEvents,
            stderrJsons_synth_fst, stderrJsons_nil, List.append_nil,
            List.nil_append]
          exact hwoj.2
        · intro ho
          rw [ho] at hv
          simp [List.mem_append, ho, hv]
    · push_neg at hav
      have ho : e.onnxAvailable = false := by simpa using hav.1
      have hk : e.kokoroAvailable = false := by simpa using hav.2
      rw [run_no_backend args e ho hk]
      cases hio : args.infoOnly <;>
        simp [ho, hio, errJson, stdoutJsons, stderrJsons,
          backendUnavailableMsg, emptyInputMsg]
  constructor
  · exact key t
  · intro hmem
    rcases htext : args.text with _ | t'
    · exact Or.inl rfl
    · by_cases hne : t' = ""
      · exact Or.inr (by rw [hne])
      · exact absurd hmem ((key t' htext hne).2.1)

/-- Instantiation of the C9 theorem: whitespace-only `--text " "` in
`envOnnxOk`, with the inner premises discharged. -/
theorem run_text_flag_verbatim_witness :
    (getText { text := some " " } envOnnxOk = (" ", []) ∧
      Event.readStdin ∉ (run { text := some " " } envOnnxOk).2 ∧
      JOut.errObj emptyInputMsg ∉ stdoutJsons (run { text := some " " } envOnnxOk).2 ∧
      JOut.errObj emptyInputMsg ∉ stderrJsons (run { text := some " " } envOnnxOk).2 ∧
      (envOnnxOk.onnxAvailable = true →
        Event.invokeOnnx " " ({ text := some " " } : Args).voice
          ({ text := some " " } : Args).speed ∈ (run { text := some " " } envOnnxOk).2)) ∧
    (Event.readStdin ∈ (run { text := some " " } envOnnxOk).2 →
      ({ text := some " " } : Args).text = none ∨
      ({ text := some " " } : Args).text = some "") :=
  ⟨(run_text_flag_verbatim { text := some " " } envOnnxOk " ").1 rfl (by decide),
   (run_text_flag_verbatim { text := some " " } envOnnxOk " ").2⟩

/-- **C10.** In opus mode the target path is derived from the `--output`
path by replacing every occurrence of the substring ".wav" with ".opus"
anywhere in the path (so a path with two occurrences has both replaced);
in particular, for every `--output` path containing no ".wav" substring
the derived opus path equals the original path, the file at that path is
deleted after transcoding, and the success report names the deleted
path. -/
theorem run_opus_path_derivation (args : Args) (e : Env) (p text : String)
    (evts : List Event) (audio : List Nat) (rate : Nat)
    (hinfo : args.infoOnly = false) (hout : args.output = some p)
    (hfmt : args.format = "opus") (hnw : ¬ ".wav".data <:+: p.data)
    (hav : e.onnxAvailable = true ∨ e.kokoroAvailable = true)
    (hgt : getText args e = (text, evts)) (hte : text ≠ "")
    (hs : (synth e.onnxAvailable args e text).2 = .ok (audio, rate))
    (hff : e.ffmpegExit = 0) :
    opusPath "x.wav.wavy" = "x.opus.opusy" ∧
    opusPath p = p ∧
    (run args e).1 = 0 ∧
    Event.deleteFile p ∈ (run args e).2 ∧
    stderrJsons (run args e).2 = [JOut.fileObj p (duration audio.length rate)] ∧
    finalFiles (run args e).2 = [] := by
  have heq : opusPath p = p := opusPath_eq_of_no_occurrence p hnw
  have hge := getText_events args e
  rw [hgt] at hge
  simp only at hge
  refine ⟨by decide, heq, ?_⟩
  rw [run_synth_ok args e text evts audio rate hav hgt hte hs,
    writeOutput_opus_ok args e audio rate p hinfo hout hfmt hff, heq]
  rcases synth_events e.onnxAvailable args e text with hv | hv <;>
    rcases importEvents_cases e with hi | hi <;> rcases hge with hg | hg <;>
    subst hg <;>
    simp [hi, hv, finalFiles, applyEvent, stderrJsons]

/-- Instantiation of the C10 theorem: `--output set --format opus`, a path
with no ".wav" occurrence, in `envOnnxOk`. -/
theorem run_opus_path_derivation_witness :
    opusPath "x.wav.wavy" = "x.opus.opusy" ∧
    opusPath "set" = "set" ∧
    (run { output := some "set", format := "opus", text := some "hi" } envOnnxOk).1 = 0 ∧
    Event.deleteFile "set" ∈
      (run { output := some "set", format := "opus", text := some "hi" } envOnnxOk).2 ∧
    stderrJsons (run { output := some "set", format := "opus", text := some "hi" } envOnnxOk).2 =
      [JOut.fileObj "set"
        (duration (audioBytes [(1 : ℚ)/2, -(1 : ℚ)/4]).length 24000)] ∧
    finalFiles (run { output := some "set", format := "opus", text := some "hi" } envOnnxOk).2 = [] :=
  run_opus_path_derivation _ envOnnxOk "set" "hi" []
    (audioBytes [(1 : ℚ)/2, -(1 : ℚ)/4]) 24000
    rfl rfl rfl (by decide) (Or.inl rfl) rfl (by decide) rfl rfl

end Kokoro
